import Mathlib

/-!
Shallow embedding of the core of the `torrent-dht` implementation
(Kademlia routing table, KRPC transaction registry, info-hash/peer/token
store, and the request/response/error handler slices the verified
properties concern), together with theorems settling the specified
properties against it.

Conventions of the embedding:
* JS numbers that are used as integers become `Nat`; ids and `BitArray`
  values are 160-bit unsigned integers, represented as `Nat` (all
  comparisons in the source go through `BitArray.toBigInt`-style views).
* JS `Map` becomes an association list in insertion order; `Map.set`
  replaces an existing key in place and appends a new key.
* JS `Set` iterates in insertion order; deleting the first iterator value
  is removing the list head, `Set.add` appends.
* `Date.now()` becomes an explicit `now : Nat` argument.
* A thrown exception becomes `Option.none`.
-/

namespace TorrentDht

/-! ### JS Map / Set helpers -/

/-- JS `Map.set k v`: replace the value of an existing key in place,
otherwise append the new entry at the end (insertion order). -/
def setEntry {α : Type} : List (String × α) → String → α → List (String × α)
  | [], k, v => [(k, v)]
  | (k', v') :: rest, k, v =>
    if k' = k then (k, v) :: rest else (k', v') :: setEntry rest k v

/-- JS string truthiness: a present, non-empty string. -/
def tokenTruthy : Option String → Bool
  | none => false
  | some s => s ≠ ""

/-! ### `src/src/info_hash_manager.ts` — InfoHashManager -/

/-- Source `src/src/peer.ts`: the fields of a `Peer` the store observes. -/
structure Peer where
  port : Nat
  addr : String
deriving DecidableEq, Repr

/-- Source `#MAX_PEER_NUM_EACH_INFO_HASH = 100` -/
def MAX_PEER_NUM_EACH_INFO_HASH : Nat := 100

/-- Source `#MAX_INFO_HASH_NUM = 1024 * 1024` -/
def MAX_INFO_HASH_NUM : Nat := 1024 * 1024

/-- The state of `InfoHashManager`: `#infoHashes : Map<string, Set<Peer>>`
and `#tokenMap : Map<string, string>`.  The `Set<Peer>` holds object
references; every caller inserts freshly constructed `Peer` objects, so
`Set.add` always appends, and the set is embedded as a list. -/
structure InfoHashStore where
  infoHashes : List (String × List Peer)
  tokenMap : List (String × String)
deriving DecidableEq, Repr

/-- Source `findToken(infoHash)`: `this.#tokenMap.get(infoHash)` -/
def InfoHashStore.findToken (st : InfoHashStore) (infoHash : String) : Option String :=
  st.tokenMap.lookup infoHash

/-- Source `find(infoHash)`: the stored peer set, `undefined` when absent. -/
def InfoHashStore.findPeers (st : InfoHashStore) (infoHash : String) : Option (List Peer) :=
  st.infoHashes.lookup infoHash

/-- The third guard of `add`: `peers && peers.size >= MAX_PEER_NUM_EACH_INFO_HASH`. -/
def peersAtCap : Option (List Peer) → Bool
  | none => false
  | some ps => MAX_PEER_NUM_EACH_INFO_HASH ≤ ps.length

/-- Source `InfoHashManager.add(infoHash, peer, token)`, line by line:
reject when the global map size is at the cap; reject when a stored,
truthy token differs from `token`; reject when the peer set is at its
cap; otherwise create the peer set when absent, set the token when the
stored one is falsy, and add the peer. -/
def InfoHashStore.add (st : InfoHashStore) (infoHash : String) (peer : Peer)
    (token : String) : InfoHashStore :=
  if MAX_INFO_HASH_NUM ≤ st.infoHashes.length then st
  else
    let prevToken := st.tokenMap.lookup infoHash
    if tokenTruthy prevToken ∧ prevToken ≠ some token then st
    else
      let peersOpt := st.infoHashes.lookup infoHash
      if peersAtCap peersOpt then st
      else
        let st1 : InfoHashStore :=
          if peersOpt.isNone then
            { st with infoHashes := st.infoHashes ++ [(infoHash, [])] }
          else st
        let st2 : InfoHashStore :=
          if ¬ tokenTruthy prevToken then
            { st1 with tokenMap := setEntry st1.tokenMap infoHash token }
          else st1
        { st2 with infoHashes := setEntry st2.infoHashes infoHash (peersOpt.getD [] ++ [peer]) }

/-- Source `addList(infoHash, peers, token)` -/
def InfoHashStore.addList (st : InfoHashStore) (infoHash : String) (peers : List Peer)
    (token : String) : InfoHashStore :=
  peers.foldl (fun s p => s.add infoHash p token) st

/-! ### `announce_peer` request handler slice
(`RequestHandler.handleAnnouncePeerQueryRequest`) -/

/-- Modelled from the spec: `BytesUtil.bytes2HexStr` lives in the external
`toolkit` package, which is not part of this repository; the spec calls
its result `hash_hex`, the hex string of the 20 info-hash bytes. -/
def bytes2HexStr (bs : List Nat) : String :=
  String.join (bs.map (fun b =>
    String.mk ["0123456789abcdef".toList.getD (b / 16 % 16) '0',
               "0123456789abcdef".toList.getD (b % 16) '0']))

/-- Source `Id.isValidId(id)`: present and exactly 20 bytes. -/
def isValidId : Option (List Nat) → Bool
  | none => false
  | some bs => bs.length = 20

/-- JS number truthiness of `a.port` (`!port` fails for absent or zero). -/
def portTruthy : Option Nat → Bool
  | none => false
  | some p => p ≠ 0

/-- Source `ErrorType.PROTOCOL` -/
def ERROR_PROTOCOL : Nat := 203

/-- Source `ErrorType.GENERIC` -/
def ERROR_GENERIC : Nat := 201

/-- The reply the announce-peer handler sends back. -/
inductive KrpcReply where
  | errorReply (code : Nat) (msg : String)
  | announcePeerReply
deriving DecidableEq, Repr

/-- The fields of an incoming `announce_peer` query message the handler
reads: the transaction id `t` and the arguments dictionary `a`.  The
`a.token` field is carried by the wire format but, notably, is never read
by the handler. -/
structure AnnounceMsg where
  t : String
  infoHash : Option (List Nat)
  port : Option Nat
  impliedPort : Option Nat
  aToken : Option String
deriving DecidableEq, Repr

/-- Source `RequestHandler.handleAnnouncePeerQueryRequest(reqMsg, reqNode, tid)`.
The handler binds `const token = reqMsg.t` — the transaction id field,
not `reqMsg.a.token` — validates the info-hash, the port and that token,
compares it against the stored token of the info-hash, and on success
stores `Peer(downloadPort, reqNode.addr)` and replies `responseAnnouncePeer`.  -/
def handleAnnouncePeerQueryRequest (store : InfoHashStore) (msg : AnnounceMsg)
    (reqNodePort : Nat) (reqNodeAddr : String) : InfoHashStore × KrpcReply :=
  if ¬ isValidId msg.infoHash then
    (store, .errorReply ERROR_PROTOCOL "invalid info hash")
  else if ¬ portTruthy msg.port then
    (store, .errorReply ERROR_PROTOCOL "invalid port")
  else if msg.t = "" then
    (store, .errorReply ERROR_PROTOCOL "invalid token")
  else if tokenTruthy (store.findToken (bytes2HexStr (msg.infoHash.getD []))) ∧
      store.findToken (bytes2HexStr (msg.infoHash.getD [])) ≠ some msg.t then
    (store, .errorReply ERROR_PROTOCOL "token not match")
  else
    (store.add (bytes2HexStr (msg.infoHash.getD []))
        ⟨if msg.impliedPort.getD 0 = 1 then reqNodePort else msg.port.getD 0, reqNodeAddr⟩
        msg.t,
      .announcePeerReply)

/-! ### `src/src/krpc/transcation_manager.ts` — TranscationManager -/

/-- Source `#CHARS = '0123456789abcdefghijklmnopqrstuvwxyzABCDEFGHIJKLMNOPQRSTUVWXYZ'` -/
def CHARS : String := "0123456789abcdefghijklmnopqrstuvwxyzABCDEFGHIJKLMNOPQRSTUVWXYZ"

/-- Source `#ID_COUNT_MAX = this.#CHARS.length ^ 2`.  In TypeScript `^` is the
bitwise XOR operator, so this evaluates to `62 XOR 2 = 60`, not `62² = 3844`. -/
def ID_COUNT_MAX : Nat := Nat.xor CHARS.length 2

/-- Source `#ID_COUNT_HALF = this.#ID_COUNT_MAX / 2` -/
def ID_COUNT_HALF : Nat := ID_COUNT_MAX / 2

/-- Source `#EXPIRED_TIME = 1000 * 60 * 60 * 24` (24 hours; the source comment
saying "5 minutes" is stale). -/
def EXPIRED_TIME : Nat := 1000 * 60 * 60 * 24

/-- The state of `TranscationManager`: the free tid pool (a `Set<string>`
in iteration order) and the borrowed map `tid ↦ expiredAt` (the attached
request data plays no role in the verified properties and is omitted). -/
structure Registry where
  tidPool : List String
  transcations : List (String × Nat)
deriving DecidableEq, Repr

/-- Source `initIdPool()`: all two-character tids over `CHARS`, outer loop on the
first character.  The source then shuffles the pool uniformly at random;
the embedding keeps the generation order (the spec leaves the selection
order unspecified, and every verified statement is invariant under the
initial permutation). -/
def initIdPool : List String :=
  CHARS.toList.flatMap (fun a => CHARS.toList.map (fun b => String.mk [a, b]))

def initRegistry : Registry := { tidPool := initIdPool, transcations := [] }

/-- Source `isExpiredTid(tid)`: not borrowed gives `false`, else `expiredAt < Date.now()`. -/
def Registry.isExpiredTid (reg : Registry) (now : Nat) (tid : String) : Bool :=
  match reg.transcations.lookup tid with
  | none => false
  | some expiredAt => expiredAt < now

/-- Source `isValid(tid)`: borrowed and not expired. -/
def Registry.isValid (reg : Registry) (now : Nat) (tid : String) : Bool :=
  (reg.transcations.lookup tid).isSome && ! reg.isExpiredTid now tid

/-- Source `putbackTid(tid)`: no-op unless borrowed; else delete the borrow entry
and add the tid back to the pool (`Set.add` appends). -/
def Registry.putbackTid (reg : Registry) (tid : String) : Registry :=
  if (reg.transcations.lookup tid).isNone then reg
  else
    { tidPool := reg.tidPool ++ [tid],
      transcations := reg.transcations.eraseP (fun p => p.1 == tid) }

/-- Source `clearExpiredTid()`: snapshot the expired borrow entries, then put
each back. -/
def Registry.clearExpiredTid (reg : Registry) (now : Nat) : Registry :=
  let expiredTids := reg.transcations.filter (fun p => reg.isExpiredTid now p.1)
  expiredTids.foldl (fun r p => r.putbackTid p.1) reg

/-- Stable insertion step for sorting borrow entries by `expiredAt`
ascending: a later element goes after every earlier element with an
equal-or-smaller key (JS `Array.prototype.sort` is stable). -/
def insertByExpiredAt (p : String × Nat) : List (String × Nat) → List (String × Nat)
  | [] => [p]
  | q :: rest => if q.2 ≤ p.2 then q :: insertByExpiredAt p rest else p :: q :: rest

/-- Source `[...entries].sort((a, b) => a[1].expiredAt - b[1].expiredAt)` as a
stable sort by `expiredAt`. -/
def sortByExpiredAt (l : List (String × Nat)) : List (String × Nat) :=
  l.foldl (fun acc p => insertByExpiredAt p acc) []

/-- Source `forcePutback()`: put the earliest-expiring half of the borrowed tids
back into the pool.  (`returnCount = size / 2`; `forcePutback` is only
reached with `size = ID_COUNT_MAX`, which is even, where JS fractional
division and `Nat` division agree.) -/
def Registry.forcePutback (reg : Registry) : Registry :=
  let returnCount := reg.transcations.length / 2
  let sortedTids := sortByExpiredAt reg.transcations
  (sortedTids.take returnCount).foldl (fun r p => r.putbackTid p.1) reg

/-- Source `borrowTid()`: garbage-collect expired borrows above the half mark,
force a putback at the (mis-computed) maximum, then pop the first free
tid.  An empty pool would make the JS iterator yield `undefined`; that
is unreachable and embedded as the empty string. -/
def Registry.borrowTid (reg : Registry) (now : Nat) : String × Registry :=
  let reg := if ID_COUNT_HALF < reg.transcations.length then reg.clearExpiredTid now else reg
  let reg := if ID_COUNT_MAX ≤ reg.transcations.length then reg.forcePutback else reg
  match reg.tidPool with
  | [] => ("", reg)
  | tid :: rest => (tid, { reg with tidPool := rest })

/-- Source `create(data)`: borrow a tid and record its expiry. -/
def Registry.create (reg : Registry) (now : Nat) : String × Registry :=
  let (tid, reg) := reg.borrowTid now
  (tid, { reg with transcations := setEntry reg.transcations tid (now + EXPIRED_TIME) })

/-- Source `finish(tid)`: guarded by `isValid`, then put the tid back. -/
def Registry.finish (reg : Registry) (now : Nat) (tid : String) : Registry :=
  if ¬ reg.isValid now tid then reg else reg.putbackTid tid

/-- Source `n` consecutive `create()` calls at the same instant. -/
def createN (n : Nat) (now : Nat) (reg : Registry) : Registry :=
  match n with
  | 0 => reg
  | n + 1 => createN n now (reg.create now).2

/-! ### `src/src/krpc/handler/error_handler.ts` — ErrorResponseHandler -/

/-- Source `ErrorResponseHandler.handle` state effect.  The guard is
`if (!tid || TranscationManager.get().isValid(tid)) return`, which
early-returns exactly on the valid tids and lets the invalid ones
through to `finish` (whose own `isValid` guard then makes it a no-op).
The error payload is only logged after the state effect and is omitted. -/
def errorHandlerHandle (reg : Registry) (now : Nat) (tid : String) : Registry :=
  if tid = "" ∨ reg.isValid now tid then reg
  else reg.finish now tid

/-! ### `src/src/id.ts`, `src/src/node.ts` — Id and Node

An `Id` is a JS object wrapping a 160-bit value.  `Bucket.add` and
`Bucket.remove` compare ids with `===`, which is reference identity on
the objects, while `Id.equals` compares the underlying bytes.  The
embedding therefore carries an object-identity tag `oid` alongside the
value: two ids with the same `oid` are the same JS object (and hence
have the same bits); ids with distinct `oid`s may or may not have the
same bits. -/

structure IdObj where
  oid : Nat
  bits : Nat
deriving DecidableEq, Repr

/-- Source `Id.equals(other)`: byte equality of the underlying values. -/
def IdObj.equals (a b : IdObj) : Bool := a.bits == b.bits

/-- The fields of `Node` the bucket operations observe. -/
structure Node where
  id : IdObj
  port : Nat
  addr : String
  activedAt : Nat
deriving DecidableEq, Repr

/-- Source `Node.update(port, addr)` followed by `updateActivedAt()`. -/
def Node.update (n : Node) (port : Nat) (addr : String) (now : Nat) : Node :=
  { n with port := port, addr := addr, activedAt := now }

/-! ### `src/bucket.ts` — Bucket -/

/-- Source `Bucket`: capacity, 160-bit range bounds (source field names `start`
and `end`; `end` is a Lean keyword, rendered `stop`), the MRU node list
and `updatedAt`. -/
structure Bucket where
  capacity : Nat
  start : Nat
  stop : Nat
  nodes : List Node
  updatedAt : Nat
deriving DecidableEq, Repr

/-- Source `Bucket.withinRnage(id)` (source spelling):
`start ≤ id.bits ∧ id.bits ≤ end`. -/
def Bucket.withinRnage (b : Bucket) (idBits : Nat) : Prop :=
  b.start ≤ idBits ∧ idBits ≤ b.stop

instance (b : Bucket) (idBits : Nat) : Decidable (b.withinRnage idBits) :=
  inferInstanceAs (Decidable (_ ∧ _))

/-- Source `Bucket.isFull()`: `nodes.length >= capacity`. -/
def Bucket.isFull (b : Bucket) : Bool := b.capacity ≤ b.nodes.length

/-- Source `old.update(node.port, node.addr)` applied to the first member whose
id object is `node.id` (the member `Array.prototype.find` returned). -/
def refreshFirstById (oid : Nat) (port : Nat) (addr : String) (now : Nat) :
    List Node → List Node
  | [] => []
  | n :: rest =>
    if n.id.oid = oid then n.update port addr now :: rest
    else n :: refreshFirstById oid port addr now rest

/-- Source `Bucket.remove(node)` membership effect: `splice` out the first
member with `nodes[i].id === node.id`. -/
def removeFirstById (oid : Nat) : List Node → List Node
  | [] => []
  | n :: rest => if n.id.oid = oid then rest else n :: removeFirstById oid rest

/-- Source `Bucket.add(node)`: refresh and return `false` when
`nodes.find((n) => n.id === node.id)` hits (reference identity on the
`Id` objects); otherwise evict `oldest` (the list tail) when full, stamp
the node's `activedAt`, `unshift` it, and return `true`.  The `none`
branch of `getLast?` is unreachable: the constructor enforces
`capacity > 0`, so a full bucket is non-empty. -/
def Bucket.add (b : Bucket) (node : Node) (now : Nat) : Bucket × Bool :=
  let b := { b with updatedAt := now }
  match b.nodes.find? (fun n => n.id.oid == node.id.oid) with
  | some _ =>
    ({ b with nodes := refreshFirstById node.id.oid node.port node.addr now b.nodes }, false)
  | none =>
    let nodes₁ :=
      if b.isFull then
        match b.nodes.getLast? with
        | some oldest => removeFirstById oldest.id.oid b.nodes
        | none => b.nodes
      else b.nodes
    ({ b with nodes := { node with activedAt := now } :: nodes₁ }, true)

/-! ### `src/src/routing_table.ts` — RoutingTable -/

/-- The `Bucket` constructor: throws (`none`) when `capacity <= 0` or
`start > end`.  (The 160-bit-length check always passes: every argument
is produced by `BitArray.fromBigInt(_, 160)` or a 160-character binary
string.) -/
def mkBucket (capacity s e : Nat) : Option Bucket :=
  if capacity = 0 then none
  else if e < s then none
  else some { capacity := capacity, start := s, stop := e, nodes := [], updatedAt := 0 }

/-- Source `RoutingTable.BUCKET_CAPACITY = 8` -/
def BUCKET_CAPACITY : Nat := 8

/-- Source `generateBuckets(start, end)`: compute the midpoint split, stop with
no bucket on the local singleton, construct both half buckets (either
constructor may throw), keep the half not containing the local id and
recurse into the other.  The source recursion is unbounded; `fuel`
bounds the recursion depth in the embedding and `none` at fuel `0` never
occurs on the paths the theorems take (the top-level call halves a
`2¹⁶⁰`-sized range, so depth `160` suffices). -/
def generateBuckets (localId : Nat) : Nat → Nat → Nat → Option (List Bucket)
  | 0, _, _ => none
  | fuel + 1, s, e =>
    if s = e ∧ s = localId then some []
    else
      (mkBucket BUCKET_CAPACITY s ((s + e - 1) / 2)).bind fun leftBu =>
      (mkBucket BUCKET_CAPACITY ((s + e - 1) / 2 + 1) e).bind fun rightBu =>
      if leftBu.withinRnage localId then
        (generateBuckets localId fuel s ((s + e - 1) / 2)).map (fun bs => rightBu :: bs)
      else if rightBu.withinRnage localId then
        (generateBuckets localId fuel ((s + e - 1) / 2 + 1) e).map (fun bs => leftBu :: bs)
      else none

/-- Source `initBuckets()`: `generateBuckets('0'.repeat(160), '1'.repeat(160))`,
that is, the range `[0, 2¹⁶⁰ − 1]`. -/
def initBuckets (localId : Nat) : Option (List Bucket) :=
  generateBuckets localId 161 0 (2 ^ 160 - 1)

/-- Source `getAllNodes()`: every node of every bucket, in bucket order. -/
def getAllNodes (buckets : List Bucket) : List Node :=
  buckets.flatMap (fun b => b.nodes)

/-- The XOR distance `a.id.bits.xor(target.bits)` as an unsigned integer. -/
def nodeDist (targetBits : Nat) (n : Node) : Nat := Nat.xor n.id.bits targetBits

/-- The comparator of `findClosestNodes` orders `a` before `b` when
`a.id.bits.xor(target) < b.id.bits.xor(target)`; the embedding sorts by
that key (ties, which need byte-equal ids, are left in an unspecified
relative order by the source comparator as well). -/
def distLe (targetBits : Nat) (a b : Node) : Prop :=
  nodeDist targetBits a ≤ nodeDist targetBits b

instance (targetBits : Nat) : DecidableRel (distLe targetBits) :=
  fun x y => inferInstanceAs (Decidable (nodeDist targetBits x ≤ nodeDist targetBits y))

instance (targetBits : Nat) : IsTotal Node (distLe targetBits) :=
  ⟨fun x y => Nat.le_total (nodeDist targetBits x) (nodeDist targetBits y)⟩

instance (targetBits : Nat) : IsTrans Node (distLe targetBits) :=
  ⟨fun _ _ _ => Nat.le_trans⟩

/-- Source `findClosestNodes(targetNodeId, count)`: sort all nodes by XOR
distance to the target and return the first
`min(nodeCount, count)` (`nodeCount` is the total node count). -/
def findClosestNodes (buckets : List Bucket) (targetBits : Nat) (count : Nat) : List Node :=
  let nodes := List.insertionSort (distLe targetBits) (getAllNodes buckets)
  nodes.take (min (getAllNodes buckets).length count)

/-! ## Helper lemmas -/

theorem lookup_setEntry {α : Type} (l : List (String × α)) (k : String) (v : α) :
    (setEntry l k v).lookup k = some v := by
  induction l with
  | nil => simp [setEntry, List.lookup]
  | cons hd tl ih =>
    obtain ⟨k', v'⟩ := hd
    by_cases hk : k' = k
    · simp [setEntry, hk, List.lookup]
    · have hbe : (k == k') = false := by simp [Ne.symm hk]
      simp [setEntry, hk, List.lookup, hbe, ih]

/-! ## Claim theorems -/

/-! ### C1 — token checked by the announce handler -/

/-- A 20-byte info-hash. -/
def ihC1 : List Nat := List.replicate 20 7

/-- A store already holding one peer and the token `"aa"` for `ihC1`. -/
def storeC1 : InfoHashStore :=
  { infoHashes := [(bytes2HexStr ihC1, [⟨1, "9.9.9.9"⟩])],
    tokenMap := [(bytes2HexStr ihC1, "aa")] }

/-- An announce message whose argument token `"bb"` differs from the
stored token `"aa"`, while its transaction id `t` equals the stored token. -/
def msgC1 : AnnounceMsg :=
  { t := "aa", infoHash := some ihC1, port := some 6881,
    impliedPort := some 0, aToken := some "bb" }

/-- Claim C1, counterexample: the store holds token `"aa"` for the
info-hash and the query arguments carry the differing token `"bb"`, yet
the handler does not reply error 203 — it replies `responseAnnouncePeer`
and stores the peer, because the token it checks is read from the
message's `t` field (here `"aa"`), not from the query arguments. -/
theorem announce_token_field_counterexample :
    storeC1.findToken (bytes2HexStr (msgC1.infoHash.getD [])) = some "aa" ∧
    msgC1.aToken = some "bb" ∧
    (handleAnnouncePeerQueryRequest storeC1 msgC1 6881 "1.2.3.4").2 =
      KrpcReply.announcePeerReply ∧
    (handleAnnouncePeerQueryRequest storeC1 msgC1 6881 "1.2.3.4").1.findPeers
        (bytes2HexStr ihC1) =
      some [⟨1, "9.9.9.9"⟩, ⟨6881, "1.2.3.4"⟩] := by
  refine ⟨rfl, rfl, rfl, rfl⟩

/-- Claim C1 (amended): for every incoming announce_peer query carrying a
valid 20-byte info_hash, a truthy port and a non-empty transaction id
`t` — the field the handler reads as the token — if the store holds a
truthy token for that info-hash that differs from `t`, the handler
replies KRPC error 203 and stores nothing. -/
theorem announce_token_read_from_t (store : InfoHashStore) (msg : AnnounceMsg)
    (reqNodePort : Nat) (reqNodeAddr : String) (t0 : String)
    (h1 : isValidId msg.infoHash = true)
    (h2 : portTruthy msg.port = true)
    (h3 : msg.t ≠ "")
    (h4 : store.findToken (bytes2HexStr (msg.infoHash.getD [])) = some t0)
    (h5 : t0 ≠ "")
    (h6 : t0 ≠ msg.t) :
    handleAnnouncePeerQueryRequest store msg reqNodePort reqNodeAddr =
      (store, KrpcReply.errorReply ERROR_PROTOCOL "token not match") := by
  rw [handleAnnouncePeerQueryRequest]
  rw [if_neg (by simp [h1]), if_neg (by simp [h2]), if_neg h3]
  rw [h4]
  rw [if_pos ⟨by simp [tokenTruthy, h5], by simp [h6]⟩]

/-- An announce message whose argument token matches the stored token of
`storeC1`, while its transaction id does not. -/
def msgC1w : AnnounceMsg :=
  { t := "cc", infoHash := some ihC1, port := some 6881,
    impliedPort := some 0, aToken := some "aa" }

/-- Witness for `announce_token_read_from_t` at a concrete store and
message: the handler rejects with 203 although the argument token
matches the stored one, because `t` does not. -/
theorem announce_token_read_from_t_witness :
    handleAnnouncePeerQueryRequest storeC1 msgC1w 6881 "1.2.3.4" =
      (storeC1, KrpcReply.errorReply ERROR_PROTOCOL "token not match") :=
  announce_token_read_from_t storeC1 msgC1w 6881 "1.2.3.4" "aa"
    (by decide) (by decide) (by decide) rfl (by decide) (by decide)

/-! ### C4 — the error handler's inverted validity guard -/

/-- A registry in which tid `"aa"` is borrowed and unexpired at time 10. -/
def regC4 : Registry := ⟨["bb"], [("aa", 1000)]⟩

/-- Claim C4, evaluation at the failing input: the error handler never
changes the registry at all — its guard `!tid || isValid(tid)` returns
early exactly on the valid tids, and for invalid tids the `isValid` guard
inside `finish` makes the call a no-op.  In particular the borrowed,
unexpired tid `"aa"` is still valid after an error message for it is
handled, contradicting "finish the transaction". -/
theorem error_handler_inverted_guard :
    (∀ (reg : Registry) (now : Nat) (tid : String), errorHandlerHandle reg now tid = reg) ∧
    regC4.isValid 10 "aa" = true ∧
    (errorHandlerHandle regC4 10 "aa").isValid 10 "aa" = true := by
  refine ⟨fun reg now tid => ?_, by decide, by decide⟩
  rw [errorHandlerHandle]
  by_cases h : tid = "" ∨ reg.isValid now tid = true
  · rw [if_pos h]
  · rw [if_neg h, Registry.finish,
      if_pos (fun hv => h (Or.inr hv))]

/-! ### C5 — the global info-hash bound ignores key presence -/

def bigPeer : Peer := ⟨1, "8.8.8.8"⟩

/-- A store holding exactly `MAX_INFO_HASH_NUM` info-hashes, the first of
which (`"h0"`) has one stored peer and token `"tk"`. -/
def bigStore : InfoHashStore :=
  { infoHashes :=
      ("h0", [bigPeer]) ::
        (List.range (MAX_INFO_HASH_NUM - 1)).map (fun i => (toString (i + 1), [])),
    tokenMap := [("h0", "tk")] }

theorem bigStore_length : bigStore.infoHashes.length = MAX_INFO_HASH_NUM := by
  rw [bigStore, List.length_cons, List.length_map, List.length_range, MAX_INFO_HASH_NUM]

/-- Claim C5, counterexample: `"h0"` is already present in `bigStore`
with a matching token and fewer than 100 stored peers, the store sits
exactly at the global bound, and yet `add` rejects the write — the
`size >= MAX` guard fires before the key is even looked up. -/
theorem infohash_global_bound_counterexample :
    bigStore.findPeers "h0" = some [bigPeer] ∧
    bigStore.findToken "h0" = some "tk" ∧
    ([bigPeer] : List Peer).length < MAX_PEER_NUM_EACH_INFO_HASH ∧
    bigStore.infoHashes.length = MAX_INFO_HASH_NUM ∧
    bigStore.add "h0" ⟨2, "9.9.9.9"⟩ "tk" = bigStore := by
  refine ⟨rfl, rfl, by decide, bigStore_length, ?_⟩
  rw [InfoHashStore.add, if_pos (le_of_eq bigStore_length.symm)]

/-- Claim C5 (amended): an `add` is rejected on account of the global
bound whenever the store already holds at least 1,048,576 info-hashes,
regardless of whether `hash_hex` is already present; below the bound, an
`add` to a present hash with matching token and fewer than 100 stored
peers does insert the peer. -/
theorem infohash_global_bound_amended :
    (∀ (st : InfoHashStore) (h : String) (p : Peer) (tok : String),
      MAX_INFO_HASH_NUM ≤ st.infoHashes.length → st.add h p tok = st) ∧
    (∀ (st : InfoHashStore) (h : String) (p : Peer) (tok : String) (ps : List Peer),
      st.infoHashes.length < MAX_INFO_HASH_NUM →
      st.findPeers h = some ps →
      ps.length < MAX_PEER_NUM_EACH_INFO_HASH →
      st.findToken h = some tok →
      (st.add h p tok).findPeers h = some (ps ++ [p])) := by
  constructor
  · intro st h p tok hle
    rw [InfoHashStore.add, if_pos hle]
  · intro st h p tok ps hlen hps hcap htok
    rw [InfoHashStore.findToken] at htok
    rw [InfoHashStore.findPeers] at hps
    simp only [InfoHashStore.add, htok, hps]
    rw [if_neg (by omega), if_neg (by simp), if_neg (by simp [peersAtCap]; omega)]
    simp only [Option.isNone_some, Bool.false_eq_true, if_false, Option.getD_some]
    by_cases htr : tokenTruthy (some tok) = true
    · rw [if_neg (by simp [htr]), InfoHashStore.findPeers]
      exact lookup_setEntry _ _ _
    · rw [if_pos (by simp [htr]), InfoHashStore.findPeers]
      exact lookup_setEntry _ _ _

/-- Witness for `infohash_global_bound_amended`: the bound branch at
`bigStore`, and the insert branch at a one-entry store. -/
theorem infohash_global_bound_amended_witness :
    bigStore.add "h0" ⟨2, "9.9.9.9"⟩ "tk" = bigStore ∧
    ((⟨[("h", [⟨1, "7.7.7.7"⟩])], [("h", "t")]⟩ : InfoHashStore).add "h"
          ⟨2, "9.9.9.9"⟩ "t").findPeers "h" =
      some ([⟨1, "7.7.7.7"⟩] ++ [(⟨2, "9.9.9.9"⟩ : Peer)]) :=
  ⟨infohash_global_bound_amended.1 bigStore "h0" ⟨2, "9.9.9.9"⟩ "tk"
      (le_of_eq bigStore_length.symm),
   infohash_global_bound_amended.2 ⟨[("h", [⟨1, "7.7.7.7"⟩])], [("h", "t")]⟩ "h"
      ⟨2, "9.9.9.9"⟩ "t" [⟨1, "7.7.7.7"⟩] (by decide) rfl (by decide) rfl⟩

/-! ### C10 — every rejected add leaves the store unchanged -/

/-- Claim C10: whichever of the three reject conditions holds — the
global info-hash bound, a truthy stored token differing from the
supplied one, or a full per-hash peer set — `add` returns the store
exactly as it was: no peer, no token, no new entry. -/
theorem add_rejected_leaves_store_unchanged (st : InfoHashStore) (h : String)
    (p : Peer) (tok : String)
    (hrej : MAX_INFO_HASH_NUM ≤ st.infoHashes.length ∨
      (tokenTruthy (st.tokenMap.lookup h) = true ∧ st.tokenMap.lookup h ≠ some tok) ∨
      peersAtCap (st.infoHashes.lookup h) = true) :
    st.add h p tok = st := by
  simp only [InfoHashStore.add]
  by_cases h1 : MAX_INFO_HASH_NUM ≤ st.infoHashes.length
  · rw [if_pos h1]
  · rw [if_neg h1]
    by_cases h2 : tokenTruthy (st.tokenMap.lookup h) = true ∧
        st.tokenMap.lookup h ≠ some tok
    · rw [if_pos h2]
    · rw [if_neg h2]
      by_cases h3 : peersAtCap (st.infoHashes.lookup h) = true
      · rw [if_pos h3]
      · exact absurd hrej (by simp [h1, h2, h3])

/-- Witness for `add_rejected_leaves_store_unchanged`: a token-mismatch
rejection at a concrete one-entry store. -/
theorem add_rejected_leaves_store_unchanged_witness :
    (⟨[("h", [⟨1, "7.7.7.7"⟩])], [("h", "t1")]⟩ : InfoHashStore).add "h"
        ⟨2, "8.8.8.8"⟩ "t2" =
      ⟨[("h", [⟨1, "7.7.7.7"⟩])], [("h", "t1")]⟩ :=
  add_rejected_leaves_store_unchanged _ "h" ⟨2, "8.8.8.8"⟩ "t2"
    (Or.inr (Or.inl (by decide)))

/-! ### C6 — finish and expired-but-present tids -/

/-- A registry in which tid `"aa"` is borrowed but expired at time 10. -/
def regC6 : Registry := ⟨["bb"], [("aa", 5)]⟩

/-- Claim C6, counterexample: `"aa"` is present in the borrowed map with
expiry 5 < 10, yet `finish` at time 10 is a no-op — the tid stays in the
borrowed map and is not returned to the pool, because `finish` is guarded
by `isValid`, which is false for expired tids. -/
theorem finish_expired_noop_counterexample :
    regC6.transcations.lookup "aa" = some 5 ∧ (5 : Nat) < 10 ∧
    regC6.finish 10 "aa" = regC6 := by
  refine ⟨rfl, by decide, by decide⟩

/-- Claim C6 (amended): `finish(tid)` reclaims a present tid only when
it is unexpired — for a present-but-expired tid it is a no-op (such tids
are reclaimed by `clearExpiredTid` during `create` instead); for a
present, unexpired tid it removes the borrow entry and appends the tid
to the free pool. -/
theorem finish_reclaims_only_unexpired (reg : Registry) (now : Nat) (tid : String) :
    (∀ e, reg.transcations.lookup tid = some e → e < now →
      reg.finish now tid = reg) ∧
    (∀ e, reg.transcations.lookup tid = some e → ¬ e < now →
      (reg.finish now tid).transcations =
          reg.transcations.eraseP (fun p => p.1 == tid) ∧
        (reg.finish now tid).tidPool = reg.tidPool ++ [tid]) := by
  constructor
  · intro e he hlt
    rw [Registry.finish, if_pos]
    simp [Registry.isValid, Registry.isExpiredTid, he, hlt]
  · intro e he hnlt
    rw [Registry.finish, if_neg, Registry.putbackTid, if_neg (by simp [he])]
    · exact ⟨rfl, rfl⟩
    · simp [Registry.isValid, Registry.isExpiredTid, he, hnlt]

/-! ### C2 — forced reclamation threshold of the tid registry -/

set_option maxRecDepth 8000 in
/-- Claim C2, evaluation at the failing input: the tid pool genuinely
holds 62 × 62 = 3844 two-character tids, but `#ID_COUNT_MAX` is computed
with the TypeScript `^` operator — bitwise XOR — so it is 62 XOR 2 = 60,
not 3844.  Sixty back-to-back `create()` calls at time 0 leave 60
borrowed tids (the first of them, `"00"`, still valid); the 61st call
force-reclaims the 30 oldest borrowed, unexpired tids (leaving 31
outstanding, `"00"` no longer valid) instead of the 3845th call being
the first to force a reclaim. -/
theorem tid_force_reclaim_at_sixty_one :
    ID_COUNT_MAX = 60 ∧
    initRegistry.tidPool.length = 3844 ∧
    (createN 60 0 initRegistry).transcations.length = 60 ∧
    (createN 60 0 initRegistry).isValid 0 "00" = true ∧
    (createN 61 0 initRegistry).transcations.length = 31 ∧
    (createN 61 0 initRegistry).isValid 0 "00" = false := by
  refine ⟨by decide, ?_, by decide, by decide, by decide, by decide⟩
  show initIdPool.length = 3844
  rw [initIdPool, List.length_flatMap]
  simp only [Function.comp_def, List.length_map]
  decide

/-! ### C3 — bucket admission compares ids by reference identity -/

/-- A bucket holding one node whose id has bits 7 (id object 0). -/
def bktC3 : Bucket := ⟨8, 0, 1000000, [⟨⟨0, 7⟩, 10, "1.1.1.1", 0⟩], 0⟩

/-- A node whose id is byte-equal to the member's id (bits 7) but is a
different JS object (id object 1). -/
def nodeC3 : Node := ⟨⟨1, 7⟩, 11, "2.2.2.2", 0⟩

/-- Claim C3, evaluation at the failing input: `nodeC3`'s id is byte-equal
(`Id.equals`) to the id of the only member of `bktC3`, so the claim asks
`add` to refresh the member and return `false`; the source instead
compares with `===` on the `Id` objects, misses the match, inserts the
node at the head and returns `true`, leaving two byte-equal ids in the
bucket. -/
theorem bucket_add_reference_identity_eval :
    (∀ m ∈ bktC3.nodes, IdObj.equals m.id nodeC3.id = true) ∧
    (bktC3.add nodeC3 5).2 = true ∧
    (bktC3.add nodeC3 5).1.nodes.length = 2 ∧
    (bktC3.add nodeC3 5).1.nodes.map (fun n => n.id.bits) = [7, 7] := by
  refine ⟨by decide, by decide, by decide, by decide⟩

/-! ### C8 — the generated buckets partition the id space -/

theorem generateBuckets_partition :
    ∀ (k : Nat), ∀ (s localId fuel : Nat),
      s ≤ localId → localId ≤ s + (2 ^ k - 1) → k < fuel →
      ∃ bs : List Bucket,
        generateBuckets localId fuel s (s + (2 ^ k - 1)) = some bs ∧
        bs.length = k ∧
        (∀ x : Nat, (∃ b ∈ bs, b.withinRnage x) ↔
          (s ≤ x ∧ x ≤ s + (2 ^ k - 1) ∧ x ≠ localId)) ∧
        bs.Pairwise (fun b₁ b₂ => ∀ x : Nat, b₁.withinRnage x → ¬ b₂.withinRnage x) := by
  intro k
  induction k with
  | zero =>
    intro s localId fuel hs hl hf
    have he : s + (2 ^ 0 - 1) = s := by norm_num
    rw [he] at hl ⊢
    have hloc : localId = s := by omega
    obtain ⟨f, rfl⟩ : ∃ f, fuel = f + 1 := ⟨fuel - 1, by omega⟩
    refine ⟨[], ?_, rfl, ?_, List.Pairwise.nil⟩
    · simp only [generateBuckets]
      rw [if_pos (by simp [hloc])]
    · intro x
      constructor
      · rintro ⟨b, hb, -⟩
        exact absurd hb (List.not_mem_nil b)
      · rintro ⟨hx1, hx2, hx3⟩
        exact absurd (show x = localId by omega) hx3
  | succ k ih =>
    intro s localId fuel hs hl hf
    have h2k : 0 < 2 ^ k := Nat.pow_pos (by norm_num)
    have hpow : 2 ^ (k + 1) = 2 * 2 ^ k := by rw [pow_succ]; ring
    obtain ⟨f, rfl⟩ : ∃ f, fuel = f + 1 := ⟨fuel - 1, by omega⟩
    have hmid : (s + (s + (2 ^ (k + 1) - 1)) - 1) / 2 = s + (2 ^ k - 1) := by omega
    have hneq : ¬(s = s + (2 ^ (k + 1) - 1) ∧ s = localId) := by
      rintro ⟨h1, -⟩
      omega
    simp only [generateBuckets]
    rw [if_neg hneq, hmid]
    have hLb : mkBucket BUCKET_CAPACITY s (s + (2 ^ k - 1)) =
        some ⟨BUCKET_CAPACITY, s, s + (2 ^ k - 1), [], 0⟩ := by
      simp only [mkBucket]
      rw [if_neg (by norm_num [BUCKET_CAPACITY]), if_neg (by omega)]
    have hRb : mkBucket BUCKET_CAPACITY (s + (2 ^ k - 1) + 1) (s + (2 ^ (k + 1) - 1)) =
        some ⟨BUCKET_CAPACITY, s + (2 ^ k - 1) + 1, s + (2 ^ (k + 1) - 1), [], 0⟩ := by
      simp only [mkBucket]
      rw [if_neg (by norm_num [BUCKET_CAPACITY]), if_neg (by omega)]
    rw [hLb, hRb]
    simp only [Option.some_bind]
    by_cases hcase : localId ≤ s + (2 ^ k - 1)
    · rw [if_pos (show Bucket.withinRnage ⟨BUCKET_CAPACITY, s, s + (2 ^ k - 1), [], 0⟩ localId
        from ⟨hs, hcase⟩)]
      obtain ⟨bs', heq, hlen', hunion, hpair⟩ := ih s localId f hs hcase (by omega)
      rw [heq]
      simp only [Option.map_some']
      refine ⟨⟨BUCKET_CAPACITY, s + (2 ^ k - 1) + 1, s + (2 ^ (k + 1) - 1), [], 0⟩ :: bs',
        rfl, by simp [hlen'], ?_, ?_⟩
      · intro x
        constructor
        · rintro ⟨b, hb, hcov⟩
          rcases List.mem_cons.mp hb with rfl | hb'
          · have hc : s + (2 ^ k - 1) + 1 ≤ x ∧ x ≤ s + (2 ^ (k + 1) - 1) := hcov
            exact ⟨by omega, by omega, by omega⟩
          · have hres := (hunion x).mp ⟨b, hb', hcov⟩
            exact ⟨hres.1, by omega, hres.2.2⟩
        · rintro ⟨hx1, hx2, hx3⟩
          by_cases hsplit : x ≤ s + (2 ^ k - 1)
          · obtain ⟨b, hb, hcov⟩ := (hunion x).mpr ⟨hx1, hsplit, hx3⟩
            exact ⟨b, List.mem_cons_of_mem _ hb, hcov⟩
          · exact ⟨_, List.mem_cons_self _ _,
              ⟨show s + (2 ^ k - 1) + 1 ≤ x by omega, hx2⟩⟩
      · refine List.pairwise_cons.mpr ⟨?_, hpair⟩
        intro b hb x hcovR hcovB
        have hx := (hunion x).mp ⟨b, hb, hcovB⟩
        have hc1 : s + (2 ^ k - 1) + 1 ≤ x := hcovR.1
        omega
    · rw [if_neg (show ¬ Bucket.withinRnage ⟨BUCKET_CAPACITY, s, s + (2 ^ k - 1), [], 0⟩ localId
        from fun hcov => hcase hcov.2)]
      rw [if_pos (show Bucket.withinRnage
          ⟨BUCKET_CAPACITY, s + (2 ^ k - 1) + 1, s + (2 ^ (k + 1) - 1), [], 0⟩ localId
        from ⟨show s + (2 ^ k - 1) + 1 ≤ localId by omega,
          show localId ≤ s + (2 ^ (k + 1) - 1) by omega⟩)]
      have harg : (s + (2 ^ k - 1) + 1) + (2 ^ k - 1) = s + (2 ^ (k + 1) - 1) := by omega
      obtain ⟨bs', heq, hlen', hunion, hpair⟩ :=
        ih (s + (2 ^ k - 1) + 1) localId f (by omega) (by omega) (by omega)
      rw [harg] at heq hunion
      rw [heq]
      simp only [Option.map_some']
      refine ⟨⟨BUCKET_CAPACITY, s, s + (2 ^ k - 1), [], 0⟩ :: bs', rfl, by simp [hlen'], ?_, ?_⟩
      · intro x
        constructor
        · rintro ⟨b, hb, hcov⟩
          rcases List.mem_cons.mp hb with rfl | hb'
          · have hc : s ≤ x ∧ x ≤ s + (2 ^ k - 1) := hcov
            exact ⟨hc.1, by omega, by omega⟩
          · have hres := (hunion x).mp ⟨b, hb', hcov⟩
            exact ⟨by omega, hres.2.1, hres.2.2⟩
        · rintro ⟨hx1, hx2, hx3⟩
          by_cases hsplit : x ≤ s + (2 ^ k - 1)
          · exact ⟨_, List.mem_cons_self _ _, ⟨hx1, hsplit⟩⟩
          · obtain ⟨b, hb, hcov⟩ := (hunion x).mpr ⟨by omega, hx2, hx3⟩
            exact ⟨b, List.mem_cons_of_mem _ hb, hcov⟩
      · refine List.pairwise_cons.mpr ⟨?_, hpair⟩
        intro b hb x hcovL hcovB
        have hx := (hunion x).mp ⟨b, hb, hcovB⟩
        have hc2 : x ≤ s + (2 ^ k - 1) := hcovL.2
        omega

/-- Claim C8: for every 160-bit local id, `initBuckets` succeeds and
produces exactly 160 buckets whose ranges are pairwise disjoint, lie
inside the id space minus the local id, and cover every non-local id —
each non-local `x < 2¹⁶⁰` falls within the range of exactly one bucket. -/
theorem routing_buckets_partition (localId : Nat) (h : localId < 2 ^ 160) :
    ∃ bs : List Bucket,
      initBuckets localId = some bs ∧
      bs.length = 160 ∧
      (∀ x : Nat, x < 2 ^ 160 → x ≠ localId →
        ∃! b : Bucket, b ∈ bs ∧ b.withinRnage x) ∧
      (∀ b ∈ bs, ∀ x : Nat, b.withinRnage x → x < 2 ^ 160 ∧ x ≠ localId) ∧
      bs.Pairwise (fun b₁ b₂ => ∀ x : Nat, b₁.withinRnage x → ¬ b₂.withinRnage x) := by
  obtain ⟨bs, heq, hlen, hunion, hpair⟩ :=
    generateBuckets_partition 160 0 localId 161 (Nat.zero_le _) (by omega) (by omega)
  have h160 : (0 : Nat) + (2 ^ 160 - 1) = 2 ^ 160 - 1 := by omega
  rw [h160] at heq hunion
  have hsymm : Symmetric
      (fun b₁ b₂ : Bucket => ∀ x : Nat, b₁.withinRnage x → ¬ b₂.withinRnage x) := by
    intro a c hac z hcz haz
    exact hac z haz hcz
  refine ⟨bs, heq, hlen, ?_, ?_, hpair⟩
  · intro x hx hxl
    obtain ⟨b, hb, hcov⟩ := (hunion x).mpr ⟨Nat.zero_le _, by omega, hxl⟩
    refine ⟨b, ⟨hb, hcov⟩, ?_⟩
    rintro b' ⟨hb', hcov'⟩
    by_contra hne
    exact List.Pairwise.forall hsymm hpair hb' hb hne x hcov' hcov
  · intro b hb x hcov
    have hres := (hunion x).mp ⟨b, hb, hcov⟩
    exact ⟨by omega, hres.2.2⟩

/-- Witness for `routing_buckets_partition` at local id `0`. -/
theorem routing_buckets_partition_witness :
    (0 : Nat) < 2 ^ 160 ∧
    ∃ bs : List Bucket,
      initBuckets 0 = some bs ∧
      bs.length = 160 ∧
      (∀ x : Nat, x < 2 ^ 160 → x ≠ 0 → ∃! b : Bucket, b ∈ bs ∧ b.withinRnage x) ∧
      (∀ b ∈ bs, ∀ x : Nat, b.withinRnage x → x < 2 ^ 160 ∧ x ≠ 0) ∧
      bs.Pairwise (fun b₁ b₂ => ∀ x : Nat, b₁.withinRnage x → ¬ b₂.withinRnage x) :=
  ⟨by norm_num, routing_buckets_partition 0 (by norm_num)⟩

/-! ### C7 — closest-node query -/

/-- Claim C7: `find_closest_nodes(target, k)` returns exactly the
`min(k, |P|)` elements of the routing-table population `P` of least XOR
distance to the target, in ascending distance order: the result has that
length, is sorted by ascending distance, and together with some rest it
is a permutation of `P` in which every returned element is at most as
far from the target as every element not returned. -/
theorem findClosestNodes_spec (buckets : List Bucket) (targetBits k : Nat) :
    (findClosestNodes buckets targetBits k).length = min k (getAllNodes buckets).length ∧
    List.Sorted (distLe targetBits) (findClosestNodes buckets targetBits k) ∧
    ∃ rest : List Node,
      (findClosestNodes buckets targetBits k ++ rest).Perm (getAllNodes buckets) ∧
      ∀ x ∈ findClosestNodes buckets targetBits k, ∀ y ∈ rest,
        nodeDist targetBits x ≤ nodeDist targetBits y := by
  have hperm : (List.insertionSort (distLe targetBits) (getAllNodes buckets)).Perm
      (getAllNodes buckets) := List.perm_insertionSort _ _
  have hsort : List.Sorted (distLe targetBits)
      (List.insertionSort (distLe targetBits) (getAllNodes buckets)) :=
    List.sorted_insertionSort _ _
  have hlen : (List.insertionSort (distLe targetBits) (getAllNodes buckets)).length =
      (getAllNodes buckets).length := hperm.length_eq
  have hfc : findClosestNodes buckets targetBits k =
      (List.insertionSort (distLe targetBits) (getAllNodes buckets)).take
        (min (getAllNodes buckets).length k) := rfl
  refine ⟨?_, ?_,
    (List.insertionSort (distLe targetBits) (getAllNodes buckets)).drop
      (min (getAllNodes buckets).length k), ?_, ?_⟩
  · rw [hfc, List.length_take, hlen]
    omega
  · rw [hfc]
    exact List.Pairwise.sublist (List.take_sublist _ _) hsort
  · rw [hfc, List.take_append_drop]
    exact hperm
  · intro x hx y hy
    rw [hfc] at hx
    have hsplit := List.pairwise_append.mp
      (by rw [List.take_append_drop (min (getAllNodes buckets).length k)
          (List.insertionSort (distLe targetBits) (getAllNodes buckets))]
          exact hsort)
    exact hsplit.2.2 x hx y hy

/-! ### C9 — eviction from a full bucket -/

theorem removeFirstById_getLast :
    ∀ (l : List Node), l.Pairwise (fun a c => a.id.oid ≠ c.id.oid) →
      ∀ (hne : l ≠ []), removeFirstById (l.getLast hne).id.oid l = l.dropLast := by
  intro l
  induction l with
  | nil => intro _ hne; exact absurd rfl hne
  | cons n t ih =>
    intro hpw hne
    cases t with
    | nil => simp [removeFirstById]
    | cons m rest =>
      have hne' : m :: rest ≠ [] := by simp
      rw [List.getLast_cons hne']
      have hmem : (m :: rest).getLast hne' ∈ m :: rest := List.getLast_mem hne'
      have hnoid : n.id.oid ≠ ((m :: rest).getLast hne').id.oid :=
        (List.pairwise_cons.mp hpw).1 _ hmem
      rw [removeFirstById, if_neg hnoid, ih (List.pairwise_cons.mp hpw).2 hne']
      rfl

/-- Claim C9: adding a node whose id is byte-equal to no member's id to a
full bucket evicts the list tail, inserts the node at the head with
`activedAt = now`, returns `true`, and keeps the size within capacity.
The hypotheses `hwf` and `hdist` record the facts the JS heap guarantees:
an id object determines its bits, and the members (inserted one by one by
`add`) hold pairwise distinct id objects. -/
theorem bucket_add_full_evicts_tail (b : Bucket) (node : Node) (now : Nat)
    (hcap : 0 < b.capacity)
    (hfull : b.nodes.length = b.capacity)
    (hbytes : ∀ m ∈ b.nodes, m.id.bits ≠ node.id.bits)
    (hwf : ∀ m ∈ b.nodes, m.id.oid = node.id.oid → m.id.bits = node.id.bits)
    (hdist : b.nodes.Pairwise (fun a c => a.id.oid ≠ c.id.oid)) :
    (b.add node now).2 = true ∧
    (b.add node now).1.nodes = { node with activedAt := now } :: b.nodes.dropLast ∧
    (b.add node now).1.nodes.length ≤ b.capacity := by
  have hfresh : ∀ m ∈ b.nodes, m.id.oid ≠ node.id.oid :=
    fun m hm heq => hbytes m hm (hwf m hm heq)
  have hfind : b.nodes.find? (fun n => n.id.oid == node.id.oid) = none := by
    apply List.find?_eq_none.mpr
    intro x hx
    simp [hfresh x hx]
  have hne : b.nodes ≠ [] := by
    intro h0
    rw [h0] at hfull
    simp at hfull
    omega
  have hisfull : (Bucket.isFull { b with updatedAt := now }) = true := by
    simp [Bucket.isFull, hfull]
  have hadd : b.add node now =
      (({ b with
            updatedAt := now,
            nodes := { node with activedAt := now } :: b.nodes.dropLast } : Bucket), true) := by
    rw [Bucket.add]
    simp only [hfind, hisfull, if_true]
    rw [List.getLast?_eq_getLast _ hne]
    dsimp only
    rw [removeFirstById_getLast b.nodes hdist hne]
  refine ⟨by rw [hadd], by rw [hadd], ?_⟩
  rw [hadd]
  simp only [List.length_cons, List.length_dropLast, hfull]
  omega

/-- A full bucket of capacity 8 whose members have pairwise distinct id
objects and bits `100..107`. -/
def bktC9 : Bucket :=
  ⟨8, 0, 1000000,
    [⟨⟨0, 100⟩, 0, "a", 0⟩, ⟨⟨1, 101⟩, 1, "a", 0⟩, ⟨⟨2, 102⟩, 2, "a", 0⟩,
     ⟨⟨3, 103⟩, 3, "a", 0⟩, ⟨⟨4, 104⟩, 4, "a", 0⟩, ⟨⟨5, 105⟩, 5, "a", 0⟩,
     ⟨⟨6, 106⟩, 6, "a", 0⟩, ⟨⟨7, 107⟩, 7, "a", 0⟩], 0⟩

/-- A node with fresh id bits 200 (object 8). -/
def nodeC9 : Node := ⟨⟨8, 200⟩, 9, "b", 0⟩

/-- Witness for `bucket_add_full_evicts_tail` at the concrete full
bucket `bktC9`. -/
theorem bucket_add_full_evicts_tail_witness :
    (bktC9.add nodeC9 5).2 = true ∧
    (bktC9.add nodeC9 5).1.nodes = { nodeC9 with activedAt := 5 } :: bktC9.nodes.dropLast ∧
    (bktC9.add nodeC9 5).1.nodes.length ≤ bktC9.capacity :=
  bucket_add_full_evicts_tail bktC9 nodeC9 5 (by decide) (by decide)
    (by decide) (by decide) (by decide)

/-- Witness for `finish_reclaims_only_unexpired`: the no-op branch at the
expired `regC6`, and the reclaim branch at an unexpired borrow. -/
theorem finish_reclaims_only_unexpired_witness :
    regC6.finish 10 "aa" = regC6 ∧
    (((⟨[], [("aa", 50)]⟩ : Registry).finish 10 "aa").transcations =
        ([("aa", 50)] : List (String × Nat)).eraseP (fun p => p.1 == "aa") ∧
      ((⟨[], [("aa", 50)]⟩ : Registry).finish 10 "aa").tidPool = [] ++ ["aa"]) :=
  ⟨(finish_reclaims_only_unexpired regC6 10 "aa").1 5 rfl (by decide),
   (finish_reclaims_only_unexpired ⟨[], [("aa", 50)]⟩ 10 "aa").2 50 rfl (by decide)⟩

end TorrentDht
